import Mathlib

/-!
Shallow embedding of `convert_png_to_webp.py` (PokedexImages).

The program batch-converts the PNG files of one directory to WebP.  The
embedding models:

* decoded PIL images as a mode string plus a list of RGBA samples;
* the filesystem as a list of directory entries (name, content), in
  directory-listing order; the content of a PNG file is the result PIL
  would produce when opening it (an image, or a decode error);
* `img.save` failures through an oracle `saveFails` mapping an output
  path to the error it would raise, `none` when the write succeeds;
* the observable actions of a run as an event trace (existence checks,
  codec opens, saves, directory enumeration).

Paths are used by the program only through `Path.with_suffix` and
`Path.glob("*.png")`, so a file name is modelled as a stem plus an
extension (the suffix without its dot).
-/

/-- One RGBA sample of a decoded image.  For an image whose mode has
fewer than four bands the unused slots are fixed placeholders. -/
structure Pixel where
  r : Nat
  g : Nat
  b : Nat
  a : Nat
deriving DecidableEq, Repr

/-- A decoded PIL image: its mode string (for example "RGBA", "RGB",
"LA", "P") and its samples. -/
structure Image where
  mode : String
  pixels : List Pixel
deriving DecidableEq, Repr

/-- Embeds `img.convert("RGB")` on an RGBA image: PIL drops the alpha
band and the mode becomes "RGB".  The `a` slot of an RGB-mode pixel is
an unused placeholder, fixed at 255. -/
def Image.convertRGB (img : Image) : Image :=
  ⟨"RGB", img.pixels.map fun p => ⟨p.r, p.g, p.b, 255⟩⟩

/-- Embeds `img.getextrema()[3][0]` on an RGBA image: the minimum alpha
sample over the whole image.  The `[]` case is unreachable for decoded
PNG files, whose dimensions are positive by the PNG format. -/
def alpha_min (img : Image) : Nat :=
  match img.pixels.map Pixel.a with
  | [] => 255
  | a :: as => as.foldl Nat.min a

/-- PIL color modes whose color model includes an alpha channel:
"RGBA" (true colour with alpha), "LA" (greyscale with alpha) and "PA"
(palette with alpha).  This is ImageCodec (PIL) knowledge, used to state
the claims phrased as "the color model includes an alpha channel"; note
that PNG files with a greyscale-plus-alpha color type decode to mode
"LA", not "RGBA". -/
def mode_includes_alpha (mode : String) : Bool :=
  mode = "RGBA" || mode = "LA" || mode = "PA"

/-- The keyword arguments the program passes to `img.save`: a key that
is absent from the `save_kwargs` dict is `none`. -/
structure SaveKwargs where
  format : String
  lossless : Option Bool
  quality : Option Nat
deriving DecidableEq, Repr

/-- Embeds lines 62-73 of the source: the choice of the image actually
saved and of the `save_kwargs` dict, from the decoded image and the
options `quality` and `lossless`. -/
def decideSave (img : Image) (quality : Nat) (lossless : Bool) : Image × SaveKwargs :=
  if img.mode = "RGBA" then
    if alpha_min img < 255 then
      (img, ⟨"WEBP", some lossless, if lossless then none else some quality⟩)
    else
      (img.convertRGB, ⟨"WEBP", none, some quality⟩)
  else
    (img, ⟨"WEBP", none, some quality⟩)

/-- A file name inside the source directory: the stem and the extension
(the `Path.suffix` without its leading dot).  `Path.with_suffix` and
`Path.glob("*.png")` only look at this split. -/
structure FileName where
  stem : String
  ext : String
deriving DecidableEq, Repr

/-- Embeds `png_file.with_suffix(".webp")`. -/
def withSuffixWebp (n : FileName) : FileName :=
  ⟨n.stem, "webp"⟩

deriving instance DecidableEq for Except

/-- Content of one directory entry.  A pre-existing file carries the
result `PIL.Image.open` would produce on it; a file written by the
program records the saved image and the keyword arguments used. -/
inductive FileData where
  | pre (decode : Except String Image)
  | written (img : Image) (kwargs : SaveKwargs)
deriving DecidableEq, Repr

/-- One directory entry. -/
structure DirEntry where
  name : FileName
  data : FileData
deriving DecidableEq, Repr

/-- The source directory listing, in enumeration order. -/
abbrev FS := List DirEntry

/-- Embeds `path.exists()` for a path inside the source directory. -/
def fsExists (fs : FS) (n : FileName) : Bool :=
  fs.any fun e => decide (e.name = n)

/-- Result of `PIL.Image.open` on the content of a directory entry. -/
def decodeData : FileData → Except String Image
  | .pre d => d
  | .written img _ => .ok img

/-- Embeds `PIL.Image.open(name)` together with the lazy pixel load:
any exception raised while decoding is the `.error` case. -/
def openFile (fs : FS) (n : FileName) : Except String Image :=
  match fs.find? (fun e => decide (e.name = n)) with
  | some e => decodeData e.data
  | none => .error "No such file or directory"

/-- Embeds `source_path.glob("*.png")`: the entries whose extension is
`png`, in listing order. -/
def globPng (fs : FS) : List FileName :=
  (fs.filter fun e => decide (e.name.ext = "png")).map DirEntry.name

/-- Per-file outcome, as tallied by the three loop counters. -/
inductive ConversionOutcome where
  | converted
  | skipped
  | failed (reason : String)
deriving DecidableEq, Repr

def isConverted : ConversionOutcome → Bool
  | .converted => true
  | _ => false

def isSkipped : ConversionOutcome → Bool
  | .skipped => true
  | _ => false

def isFailed : ConversionOutcome → Bool
  | .failed _ => true
  | _ => false

/-- Observable filesystem actions of a run, in order. -/
inductive Event where
  | enumerate
  | checkExists (path : FileName) (result : Bool)
  | openImage (path : FileName)
  | save (path : FileName)
deriving DecidableEq, Repr

/-- Result of processing one PNG file: its outcome, the directory
content afterwards, and the events the iteration performed. -/
structure StepResult where
  outcome : ConversionOutcome
  fs : FS
  events : List Event
deriving DecidableEq, Repr

/-- Embeds one iteration of the loop (lines 47-83 of the source):
check whether the WebP counterpart exists, otherwise open the PNG,
decide the save keywords and save.  Any exception from the `try` block
yields a `failed` outcome; a failed save writes nothing. -/
def processFile (saveFails : FileName → Option String) (quality : Nat) (lossless : Bool)
    (fs : FS) (png_file : FileName) : StepResult :=
  let webp_file := withSuffixWebp png_file
  if fsExists fs webp_file then
    ⟨.skipped, fs, [.checkExists webp_file true]⟩
  else
    match openFile fs png_file with
    | .error e => ⟨.failed e, fs, [.checkExists webp_file false, .openImage png_file]⟩
    | .ok img =>
      match saveFails webp_file with
      | some e =>
        ⟨.failed e, fs,
         [.checkExists webp_file false, .openImage png_file, .save webp_file]⟩
      | none =>
        ⟨.converted,
         fs ++ [⟨webp_file,
                 .written (decideSave img quality lossless).1 (decideSave img quality lossless).2⟩],
         [.checkExists webp_file false, .openImage png_file, .save webp_file]⟩

/-- Result of the whole loop: the outcomes in file order, the final
directory content, and the concatenated events. -/
structure LoopResult where
  outcomes : List ConversionOutcome
  fs : FS
  events : List Event
deriving DecidableEq, Repr

/-- Embeds the `for png_file in png_files` loop, threading the
directory content. -/
def runLoop (saveFails : FileName → Option String) (quality : Nat) (lossless : Bool) :
    List FileName → FS → LoopResult
  | [], fs => ⟨[], fs, []⟩
  | p :: ps, fs =>
    ⟨(processFile saveFails quality lossless fs p).outcome ::
       (runLoop saveFails quality lossless ps (processFile saveFails quality lossless fs p).fs).outcomes,
     (runLoop saveFails quality lossless ps (processFile saveFails quality lossless fs p).fs).fs,
     (processFile saveFails quality lossless fs p).events ++
       (runLoop saveFails quality lossless ps (processFile saveFails quality lossless fs p).fs).events⟩

/-- The summary printed at lines 89-92 of the source. -/
structure ConversionSummary where
  total_found : Nat
  converted_count : Nat
  skipped_count : Nat
  error_count : Nat
deriving DecidableEq, Repr

/-- The environment of one invocation: whether the source path exists
and is a directory, the directory content, and the save-failure
oracle. -/
structure Env where
  sourceExists : Bool
  isDir : Bool
  fs : FS
  saveFails : FileName → Option String

/-- The observable result of `convert_png_to_webp`: the two diagnostic
early returns of lines 26-32, the early return of lines 37-39 (which
prints "No PNG files found" and produces no summary), or a completed
run with its summary. -/
inductive RunResult where
  | dirError (msg : String)
  | noPngFiles
  | completed (summary : ConversionSummary)
deriving DecidableEq, Repr

/-- Embeds `convert_png_to_webp(source_dir, quality, lossless)`:
result, final directory content and event trace. -/
def convert_png_to_webp (env : Env) (quality : Nat) (lossless : Bool) :
    RunResult × FS × List Event :=
  if env.sourceExists then
    if env.isDir then
      let png_files := globPng env.fs
      if png_files = [] then
        (.noPngFiles, env.fs, [.enumerate])
      else
        (.completed
           ⟨png_files.length,
            (runLoop env.saveFails quality lossless png_files env.fs).outcomes.countP isConverted,
            (runLoop env.saveFails quality lossless png_files env.fs).outcomes.countP isSkipped,
            (runLoop env.saveFails quality lossless png_files env.fs).outcomes.countP isFailed⟩,
         (runLoop env.saveFails quality lossless png_files env.fs).fs,
         .enumerate :: (runLoop env.saveFails quality lossless png_files env.fs).events)
    else (.dirError "not a directory", env.fs, [])
  else (.dirError "does not exist", env.fs, [])

/-- The new entries `ws` are written one after the other on top of
`fs`, and each one is written at a path that did not exist at the
moment of its write. -/
def freshAppend : FS → List DirEntry → Prop
  | _, [] => True
  | fs, w :: ws => fsExists fs w.name = false ∧ freshAppend (fs ++ [w]) ws

/-! ### Unfolding lemmas for one loop iteration -/

/-- When the WebP counterpart exists, the iteration only checks and skips. -/
lemma processFile_of_exists (sf : FileName → Option String) (q : Nat) (l : Bool)
    (fs : FS) (p : FileName) (hE : fsExists fs (withSuffixWebp p) = true) :
    processFile sf q l fs p = ⟨.skipped, fs, [.checkExists (withSuffixWebp p) true]⟩ := by
  simp [processFile, hE]

/-- When the WebP counterpart is absent and the decode raises, the
iteration fails and writes nothing. -/
lemma processFile_of_decode_error (sf : FileName → Option String) (q : Nat) (l : Bool)
    (fs : FS) (p : FileName) (e : String)
    (hE : fsExists fs (withSuffixWebp p) = false) (hO : openFile fs p = .error e) :
    processFile sf q l fs p =
      ⟨.failed e, fs, [.checkExists (withSuffixWebp p) false, .openImage p]⟩ := by
  simp [processFile, hE, hO]

/-- When the decode succeeds but the save raises, the iteration fails
and writes nothing. -/
lemma processFile_of_save_error (sf : FileName → Option String) (q : Nat) (l : Bool)
    (fs : FS) (p : FileName) (img : Image) (e : String)
    (hE : fsExists fs (withSuffixWebp p) = false) (hO : openFile fs p = .ok img)
    (hS : sf (withSuffixWebp p) = some e) :
    processFile sf q l fs p =
      ⟨.failed e, fs,
       [.checkExists (withSuffixWebp p) false, .openImage p, .save (withSuffixWebp p)]⟩ := by
  simp [processFile, hE, hO, hS]

/-- When the decode and the save both succeed, the iteration writes the
decided image with the decided keywords at the WebP path. -/
lemma processFile_of_save_ok (sf : FileName → Option String) (q : Nat) (l : Bool)
    (fs : FS) (p : FileName) (img : Image)
    (hE : fsExists fs (withSuffixWebp p) = false) (hO : openFile fs p = .ok img)
    (hS : sf (withSuffixWebp p) = none) :
    processFile sf q l fs p =
      ⟨.converted,
       fs ++ [⟨withSuffixWebp p, .written (decideSave img q l).1 (decideSave img q l).2⟩],
       [.checkExists (withSuffixWebp p) false, .openImage p, .save (withSuffixWebp p)]⟩ := by
  simp [processFile, hE, hO, hS]

/-! ### Frame lemmas: the loop only appends fresh WebP entries -/

lemma fsExists_append (fs ws : FS) (n : FileName) (h : fsExists fs n = true) :
    fsExists (fs ++ ws) n = true := by
  simp only [fsExists, List.any_append, Bool.or_eq_true]
  exact Or.inl h

lemma fsExists_append_self (fs : FS) (n : FileName) (d : FileData) :
    fsExists (fs ++ [⟨n, d⟩]) n = true := by
  simp [fsExists, List.any_append]

/-- The loop only appends entries to the directory, each appended entry
is the WebP counterpart of one of the remaining files (in order), and
each write happens at a path that did not exist at write time. -/
lemma runLoop_fs_spec (sf : FileName → Option String) (q : Nat) (l : Bool) :
    ∀ (files : List FileName) (fs : FS),
      ∃ ws, (runLoop sf q l files fs).fs = fs ++ ws ∧
            List.Sublist (ws.map DirEntry.name) (files.map withSuffixWebp) ∧
            freshAppend fs ws := by
  intro files
  induction files with
  | nil =>
    intro fs
    exact ⟨[], by simp [runLoop], by simp, trivial⟩
  | cons p ps ih =>
    intro fs
    cases hE : fsExists fs (withSuffixWebp p) with
    | true =>
      obtain ⟨ws, h1, h2, h3⟩ := ih fs
      have hstep := processFile_of_exists sf q l fs p hE
      exact ⟨ws, by simp [runLoop, hstep, h1], h2.cons _, h3⟩
    | false =>
      cases hO : openFile fs p with
      | error e =>
        obtain ⟨ws, h1, h2, h3⟩ := ih fs
        have hstep := processFile_of_decode_error sf q l fs p e hE hO
        exact ⟨ws, by simp [runLoop, hstep, h1], h2.cons _, h3⟩
      | ok img =>
        cases hS : sf (withSuffixWebp p) with
        | some e =>
          obtain ⟨ws, h1, h2, h3⟩ := ih fs
          have hstep := processFile_of_save_error sf q l fs p img e hE hO hS
          exact ⟨ws, by simp [runLoop, hstep, h1], h2.cons _, h3⟩
        | none =>
          have hstep := processFile_of_save_ok sf q l fs p img hE hO hS
          obtain ⟨ws, h1, h2, h3⟩ :=
            ih (fs ++ [⟨withSuffixWebp p, .written (decideSave img q l).1 (decideSave img q l).2⟩])
          refine ⟨⟨withSuffixWebp p, .written (decideSave img q l).1 (decideSave img q l).2⟩ :: ws,
                  ?_, ?_, hE, ?_⟩
          · simp [runLoop, hstep, h1, List.append_assoc]
          · exact h2.cons₂ _
          · exact h3

/-- Paths that exist are still there after any number of iterations. -/
lemma runLoop_exists_mono (sf : FileName → Option String) (q : Nat) (l : Bool)
    (files : List FileName) (fs : FS) (n : FileName) (h : fsExists fs n = true) :
    fsExists (runLoop sf q l files fs).fs n = true := by
  obtain ⟨ws, h1, _, _⟩ := runLoop_fs_spec sf q l files fs
  rw [h1]
  exact fsExists_append fs ws n h

/-- Every discovered file receives exactly one outcome. -/
lemma runLoop_outcomes_length (sf : FileName → Option String) (q : Nat) (l : Bool) :
    ∀ (files : List FileName) (fs : FS),
      (runLoop sf q l files fs).outcomes.length = files.length := by
  intro files
  induction files with
  | nil => intro fs; rfl
  | cons p ps ih => intro fs; simp [runLoop, ih]

/-- Every outcome is exactly one of converted, skipped, failed. -/
lemma outcome_partition :
    ∀ outs : List ConversionOutcome,
      outs.countP isConverted + outs.countP isSkipped + outs.countP isFailed = outs.length := by
  intro outs
  induction outs with
  | nil => rfl
  | cons o os ih =>
    cases o <;> simp [List.countP_cons, isConverted, isSkipped, isFailed] <;> omega

/-- When every file already has its WebP counterpart, the loop skips
everything and leaves the directory unchanged. -/
lemma runLoop_all_skipped (sf : FileName → Option String) (q : Nat) (l : Bool) :
    ∀ (files : List FileName) (fs : FS),
      (∀ p ∈ files, fsExists fs (withSuffixWebp p) = true) →
      runLoop sf q l files fs =
        ⟨files.map fun _ => .skipped, fs,
         files.map fun p => .checkExists (withSuffixWebp p) true⟩ := by
  intro files
  induction files with
  | nil => intro fs _; rfl
  | cons p ps ih =>
    intro fs h
    have hstep := processFile_of_exists sf q l fs p (h p (List.mem_cons_self p ps))
    have hrest := ih fs fun x hx => h x (List.mem_cons_of_mem p hx)
    simp [runLoop, hstep, hrest]

/-- After a loop with no failed outcome, the WebP counterpart of every
processed file exists. -/
lemma runLoop_no_error_all_webp (sf : FileName → Option String) (q : Nat) (l : Bool) :
    ∀ (files : List FileName) (fs : FS),
      (runLoop sf q l files fs).outcomes.countP isFailed = 0 →
      ∀ p ∈ files, fsExists (runLoop sf q l files fs).fs (withSuffixWebp p) = true := by
  intro files
  induction files with
  | nil => intro fs _ p hp; cases hp
  | cons a as ih =>
    intro fs h p hp
    cases hE : fsExists fs (withSuffixWebp a) with
    | true =>
      have hstep := processFile_of_exists sf q l fs a hE
      rw [List.mem_cons] at hp
      simp only [runLoop, hstep] at h ⊢
      rcases hp with hp | hp
      · subst hp
        exact runLoop_exists_mono sf q l as fs _ hE
      · exact ih fs (by simpa [List.countP_cons, isFailed] using h) p hp
    | false =>
      cases hO : openFile fs a with
      | error e =>
        have hstep := processFile_of_decode_error sf q l fs a e hE hO
        simp [runLoop, hstep, List.countP_cons, isFailed] at h
      | ok img =>
        cases hS : sf (withSuffixWebp a) with
        | some e =>
          have hstep := processFile_of_save_error sf q l fs a img e hE hO hS
          simp [runLoop, hstep, List.countP_cons, isFailed] at h
        | none =>
          have hstep := processFile_of_save_ok sf q l fs a img hE hO hS
          rw [List.mem_cons] at hp
          simp only [runLoop, hstep] at h ⊢
          have h0 : (runLoop sf q l as
              (fs ++ [⟨withSuffixWebp a,
                       .written (decideSave img q l).1 (decideSave img q l).2⟩])).outcomes.countP
                isFailed = 0 := by
            simpa [List.countP_cons, isFailed] using h
          rcases hp with hp | hp
          · subst hp
            exact runLoop_exists_mono sf q l as _ _ (fsExists_append_self fs _ _)
          · exact ih _ h0 p hp

/-- Appending WebP entries does not change the result of the PNG glob. -/
lemma globPng_append_webp (fs : FS) (ws : List DirEntry)
    (h : ∀ w ∈ ws, w.name.ext = "webp") : globPng (fs ++ ws) = globPng fs := by
  have hnil : ws.filter (fun e => decide (e.name.ext = "png")) = [] := by
    induction ws with
    | nil => rfl
    | cons w ws2 ih =>
      have hw := h w (List.mem_cons_self w ws2)
      simp only [List.filter_cons, hw]
      simpa using ih fun x hx => h x (List.mem_cons_of_mem w hx)
  simp [globPng, List.filter_append, hnil]

/-- Characterization of a completed run: the guards passed and the
summary is the count of the loop outcomes. -/
lemma convert_completed_spec (env : Env) (q : Nat) (l : Bool) (s : ConversionSummary)
    (h : (convert_png_to_webp env q l).1 = .completed s) :
    env.sourceExists = true ∧ env.isDir = true ∧ globPng env.fs ≠ [] ∧
    s = ⟨(globPng env.fs).length,
         (runLoop env.saveFails q l (globPng env.fs) env.fs).outcomes.countP isConverted,
         (runLoop env.saveFails q l (globPng env.fs) env.fs).outcomes.countP isSkipped,
         (runLoop env.saveFails q l (globPng env.fs) env.fs).outcomes.countP isFailed⟩ ∧
    (convert_png_to_webp env q l).2.1 = (runLoop env.saveFails q l (globPng env.fs) env.fs).fs := by
  cases h1 : env.sourceExists with
  | false => simp [convert_png_to_webp, h1] at h
  | true =>
    cases h2 : env.isDir with
    | false => simp [convert_png_to_webp, h1, h2] at h
    | true =>
      by_cases h3 : globPng env.fs = []
      · simp [convert_png_to_webp, h1, h2, h3] at h
      · refine ⟨rfl, rfl, h3, ?_, ?_⟩
        · have := (by simpa [convert_png_to_webp, h1, h2, h3] using h :
            (⟨(globPng env.fs).length,
              (runLoop env.saveFails q l (globPng env.fs) env.fs).outcomes.countP isConverted,
              (runLoop env.saveFails q l (globPng env.fs) env.fs).outcomes.countP isSkipped,
              (runLoop env.saveFails q l (globPng env.fs) env.fs).outcomes.countP isFailed⟩ :
              ConversionSummary) = s)
          exact this.symm
        · simp [convert_png_to_webp, h1, h2, h3]

lemma countP_skipped_const_conv (files : List FileName) :
    (files.map fun _ => ConversionOutcome.skipped).countP isConverted = 0 := by
  induction files with
  | nil => rfl
  | cons a as ih => simp only [List.map_cons, List.countP_cons, isConverted, ih]; simp

lemma countP_skipped_const_skip (files : List FileName) :
    (files.map fun _ => ConversionOutcome.skipped).countP isSkipped = files.length := by
  induction files with
  | nil => rfl
  | cons a as ih => simp only [List.map_cons, List.countP_cons, isSkipped, ih]; simp

lemma countP_skipped_const_fail (files : List FileName) :
    (files.map fun _ => ConversionOutcome.skipped).countP isFailed = 0 := by
  induction files with
  | nil => rfl
  | cons a as ih => simp only [List.map_cons, List.countP_cons, isFailed, ih]; simp

/-! ### Claim theorems -/

/-- C3: a decoded RGBA image with minimum alpha below 255 is encoded
keeping the alpha channel (the image is saved unchanged), `lossless` is
honored, and `quality` is passed to the encoder only when `lossless` is
false. -/
theorem C3_transparent_rgba_keeps_alpha (sf : FileName → Option String) (q : Nat) (l : Bool)
    (fs : FS) (p : FileName) (img : Image)
    (hE : fsExists fs (withSuffixWebp p) = false)
    (hO : openFile fs p = .ok img)
    (hm : img.mode = "RGBA")
    (ha : alpha_min img < 255)
    (hS : sf (withSuffixWebp p) = none) :
    processFile sf q l fs p =
      ⟨.converted,
       fs ++ [⟨withSuffixWebp p,
               .written img ⟨"WEBP", some l, if l then none else some q⟩⟩],
       [.checkExists (withSuffixWebp p) false, .openImage p, .save (withSuffixWebp p)]⟩ := by
  have hd : decideSave img q l = (img, ⟨"WEBP", some l, if l then none else some q⟩) := by
    simp [decideSave, hm, ha]
  have hstep := processFile_of_save_ok sf q l fs p img hE hO hS
  simp [hstep, hd]

/-- C4: a decoded RGBA image whose alpha samples are all 255 is
converted to a 3-channel RGB image before encoding, and `quality` is
applied regardless of `lossless`. -/
theorem C4_opaque_rgba_drops_alpha (sf : FileName → Option String) (q : Nat) (l : Bool)
    (fs : FS) (p : FileName) (img : Image)
    (hE : fsExists fs (withSuffixWebp p) = false)
    (hO : openFile fs p = .ok img)
    (hm : img.mode = "RGBA")
    (ha : alpha_min img = 255)
    (hS : sf (withSuffixWebp p) = none) :
    processFile sf q l fs p =
      ⟨.converted,
       fs ++ [⟨withSuffixWebp p, .written img.convertRGB ⟨"WEBP", none, some q⟩⟩],
       [.checkExists (withSuffixWebp p) false, .openImage p, .save (withSuffixWebp p)]⟩ ∧
    img.convertRGB.mode = "RGB" := by
  have hd : decideSave img q l = (img.convertRGB, ⟨"WEBP", none, some q⟩) := by
    simp [decideSave, hm, ha]
  have hstep := processFile_of_save_ok sf q l fs p img hE hO hS
  exact ⟨by simp [hstep, hd], rfl⟩

/-- C2 (amended): only images decoded with mode exactly "RGBA" have
their alpha range inspected; an image whose color model includes an
alpha channel but whose mode is not "RGBA" (such as "LA"), just like an
image with no alpha channel at all, is encoded directly with `quality`
applied and `lossless` not honored. -/
theorem C2_rgba_only_mode_decision (sf : FileName → Option String) (q : Nat) (l : Bool)
    (fs : FS) (p : FileName) (img : Image)
    (hE : fsExists fs (withSuffixWebp p) = false)
    (hO : openFile fs p = .ok img)
    (hS : sf (withSuffixWebp p) = none) :
    (mode_includes_alpha img.mode = true → img.mode ≠ "RGBA" →
       processFile sf q l fs p =
         ⟨.converted, fs ++ [⟨withSuffixWebp p, .written img ⟨"WEBP", none, some q⟩⟩],
          [.checkExists (withSuffixWebp p) false, .openImage p, .save (withSuffixWebp p)]⟩) ∧
    (img.mode = "RGBA" →
       processFile sf q l fs p =
         if alpha_min img < 255 then
           ⟨.converted,
            fs ++ [⟨withSuffixWebp p,
                    .written img ⟨"WEBP", some l, if l then none else some q⟩⟩],
            [.checkExists (withSuffixWebp p) false, .openImage p, .save (withSuffixWebp p)]⟩
         else
           ⟨.converted,
            fs ++ [⟨withSuffixWebp p, .written img.convertRGB ⟨"WEBP", none, some q⟩⟩],
            [.checkExists (withSuffixWebp p) false, .openImage p, .save (withSuffixWebp p)]⟩) ∧
    (mode_includes_alpha img.mode = false →
       processFile sf q l fs p =
         ⟨.converted, fs ++ [⟨withSuffixWebp p, .written img ⟨"WEBP", none, some q⟩⟩],
          [.checkExists (withSuffixWebp p) false, .openImage p, .save (withSuffixWebp p)]⟩) := by
  have hstep := processFile_of_save_ok sf q l fs p img hE hO hS
  refine ⟨?_, ?_, ?_⟩
  · intro _ hm
    have hd : decideSave img q l = (img, ⟨"WEBP", none, some q⟩) := by
      simp [decideSave, hm]
    simp [hstep, hd]
  · intro hm
    by_cases ha : alpha_min img < 255
    · have hd : decideSave img q l = (img, ⟨"WEBP", some l, if l then none else some q⟩) := by
        simp [decideSave, hm, ha]
      rw [if_pos ha]
      simp [hstep, hd]
    · have hd : decideSave img q l = (img.convertRGB, ⟨"WEBP", none, some q⟩) := by
        simp [decideSave, hm, ha]
      rw [if_neg ha]
      simp [hstep, hd]
  · intro hm
    have hm2 : img.mode ≠ "RGBA" := by
      intro he
      rw [he] at hm
      simp [mode_includes_alpha] at hm
    have hd : decideSave img q l = (img, ⟨"WEBP", none, some q⟩) := by
      simp [decideSave, hm2]
    simp [hstep, hd]

/-- C5: in the summary of any completed run, the total number of PNG
files found equals the sum of the converted, skipped and error
counts. -/
theorem C5_count_conservation (env : Env) (q : Nat) (l : Bool) (s : ConversionSummary)
    (h : (convert_png_to_webp env q l).1 = .completed s) :
    s.total_found = s.converted_count + s.skipped_count + s.error_count := by
  obtain ⟨-, -, -, hs, -⟩ := convert_completed_spec env q l s h
  have hlen := runLoop_outcomes_length env.saveFails q l (globPng env.fs) env.fs
  rw [hs]
  show (globPng env.fs).length = _
  rw [← hlen]
  exact (outcome_partition _).symm

/-- C6: a file whose decode raises, or whose encode or write raises, is
recorded as `failed` (incrementing the error count), nothing is written
for it, and the loop still processes every remaining file. -/
theorem C6_per_file_failure_nonfatal (sf : FileName → Option String) (q : Nat) (l : Bool)
    (fs : FS) (p : FileName) (ps : List FileName) (e : String)
    (hE : fsExists fs (withSuffixWebp p) = false)
    (hbad : openFile fs p = .error e ∨
            (∃ img, openFile fs p = .ok img ∧ sf (withSuffixWebp p) = some e)) :
    (processFile sf q l fs p).outcome = .failed e ∧
    (processFile sf q l fs p).fs = fs ∧
    (runLoop sf q l (p :: ps) fs).outcomes = .failed e :: (runLoop sf q l ps fs).outcomes ∧
    (runLoop sf q l (p :: ps) fs).fs = (runLoop sf q l ps fs).fs ∧
    (runLoop sf q l (p :: ps) fs).outcomes.countP isFailed =
      (runLoop sf q l ps fs).outcomes.countP isFailed + 1 ∧
    (runLoop sf q l (p :: ps) fs).outcomes.length = ps.length + 1 := by
  rcases hbad with hO | ⟨img, hO, hS⟩
  · have hstep := processFile_of_decode_error sf q l fs p e hE hO
    refine ⟨?_, ?_, ?_, ?_, ?_, ?_⟩ <;>
      simp [runLoop, hstep, List.countP_cons, isFailed, runLoop_outcomes_length]
  · have hstep := processFile_of_save_error sf q l fs p img e hE hO hS
    refine ⟨?_, ?_, ?_, ?_, ?_, ?_⟩ <;>
      simp [runLoop, hstep, List.countP_cons, isFailed, runLoop_outcomes_length]

/-- C7: when the source path does not exist or is not a directory, the
run stops at once with the corresponding diagnostic, produces no
summary, and the event trace is empty: no file is read, written or even
enumerated, and the directory content is unchanged. -/
theorem C7_directory_error (env : Env) (q : Nat) (l : Bool)
    (h : env.sourceExists = false ∨ env.isDir = false) :
    convert_png_to_webp env q l =
      (.dirError (if env.sourceExists then "not a directory" else "does not exist"),
       env.fs, []) := by
  cases h1 : env.sourceExists with
  | false => simp [convert_png_to_webp, h1]
  | true =>
    have h2 : env.isDir = false := by
      rcases h with h | h
      · rw [h1] at h
        exact absurd h (by simp)
      · exact h
    simp [convert_png_to_webp, h1, h2]

lemma countP_skipped_replicate (n : Nat) :
    List.countP isSkipped (List.replicate n ConversionOutcome.skipped) = n := by
  induction n with
  | zero => rfl
  | succ k ih => simp [List.replicate_succ, List.countP_cons, isSkipped, ih]

/-- C1 (amended): when a first run completes with no errors, a second
run over the resulting directory with the same options skips every
file: its summary is exactly total_found skipped, zero converted, zero
errors, and it writes nothing. -/
theorem C1_second_run_all_skipped (env : Env) (q : Nat) (l : Bool)
    (s : ConversionSummary) (fs1 : FS)
    (h : (convert_png_to_webp env q l).1 = .completed s)
    (hfs : (convert_png_to_webp env q l).2.1 = fs1)
    (herr : s.error_count = 0) :
    (convert_png_to_webp { env with fs := fs1 } q l).1 =
      .completed ⟨s.total_found, 0, s.total_found, 0⟩ ∧
    (convert_png_to_webp { env with fs := fs1 } q l).2.1 = fs1 := by
  obtain ⟨h1, h2, h3, hs, hfs2⟩ := convert_completed_spec env q l s h
  have hfs1 : fs1 = (runLoop env.saveFails q l (globPng env.fs) env.fs).fs := by
    rw [← hfs, hfs2]
  have herr0 :
      (runLoop env.saveFails q l (globPng env.fs) env.fs).outcomes.countP isFailed = 0 := by
    rw [hs] at herr
    exact herr
  have hall : ∀ p ∈ globPng env.fs, fsExists fs1 (withSuffixWebp p) = true := by
    intro p hp
    rw [hfs1]
    exact runLoop_no_error_all_webp env.saveFails q l (globPng env.fs) env.fs herr0 p hp
  obtain ⟨ws, hw1, hw2, -⟩ := runLoop_fs_spec env.saveFails q l (globPng env.fs) env.fs
  have hext : ∀ w ∈ ws, w.name.ext = "webp" := by
    intro w hw
    have hmem : w.name ∈ (globPng env.fs).map withSuffixWebp :=
      hw2.subset (List.mem_map_of_mem DirEntry.name hw)
    obtain ⟨x, -, hxw⟩ := List.mem_map.mp hmem
    rw [← hxw]
    rfl
  have hglob : globPng fs1 = globPng env.fs := by
    rw [hfs1, hw1]
    exact globPng_append_webp env.fs ws hext
  have hskip := runLoop_all_skipped env.saveFails q l (globPng env.fs) fs1 hall
  have htot : s.total_found = (globPng env.fs).length := by rw [hs]
  constructor
  · simp only [convert_png_to_webp, h1, h2, if_true]
    simp only [hglob]
    simp [h3, hskip, countP_skipped_const_conv, countP_skipped_const_skip,
          countP_skipped_const_fail, htot, isConverted, isSkipped, isFailed,
          countP_skipped_replicate]
  · simp only [convert_png_to_webp, h1, h2, if_true]
    simp only [hglob]
    simp [h3, hskip]

/-- C8 (amended): a run over an existing directory that contains no PNG
file returns early with the "no PNG files found" diagnostic, produces
no summary, writes nothing, and its only event is the enumeration. -/
theorem C8_no_png_files (env : Env) (q : Nat) (l : Bool)
    (h1 : env.sourceExists = true) (h2 : env.isDir = true)
    (h3 : globPng env.fs = []) :
    convert_png_to_webp env q l = (.noPngFiles, env.fs, [.enumerate]) := by
  simp [convert_png_to_webp, h1, h2, h3]

/-- C9: every run only appends entries to the directory (so no
existing file is deleted or modified, in particular no source PNG),
each appended entry is the WebP counterpart of a distinct discovered
PNG file taken in order (at most one new file per input), and every
write happens at a path that did not exist at the moment of the write
(no overwrite). -/
theorem C9_write_frame (env : Env) (q : Nat) (l : Bool) :
    ∃ ws, (convert_png_to_webp env q l).2.1 = env.fs ++ ws ∧
          List.Sublist (ws.map DirEntry.name) ((globPng env.fs).map withSuffixWebp) ∧
          freshAppend env.fs ws := by
  cases h1 : env.sourceExists with
  | false => exact ⟨[], by simp [convert_png_to_webp, h1], List.nil_sublist _, trivial⟩
  | true =>
    cases h2 : env.isDir with
    | false => exact ⟨[], by simp [convert_png_to_webp, h1, h2], List.nil_sublist _, trivial⟩
    | true =>
      by_cases h3 : globPng env.fs = []
      · exact ⟨[], by simp [convert_png_to_webp, h1, h2, h3], List.nil_sublist _, trivial⟩
      · obtain ⟨ws, hw1, hw2, hw3⟩ := runLoop_fs_spec env.saveFails q l (globPng env.fs) env.fs
        exact ⟨ws, by simp [convert_png_to_webp, h1, h2, h3, hw1], hw2, hw3⟩

/-- C10: when the WebP counterpart of a PNG file already exists, the
iteration performs only the existence check: the file is recorded as
skipped, the codec is never asked to open it, and the outcome is not a
failure, so it cannot contribute to the error count. -/
theorem C10_skipped_file_never_decoded (sf : FileName → Option String) (q : Nat) (l : Bool)
    (fs : FS) (p : FileName)
    (h : fsExists fs (withSuffixWebp p) = true) :
    processFile sf q l fs p = ⟨.skipped, fs, [.checkExists (withSuffixWebp p) true]⟩ ∧
    Event.openImage p ∉ (processFile sf q l fs p).events ∧
    isFailed (processFile sf q l fs p).outcome = false := by
  have hstep := processFile_of_exists sf q l fs p h
  refine ⟨hstep, ?_, ?_⟩ <;> simp [hstep, isFailed]

/-! ### Concrete inputs for counterexamples and witnesses -/

/-- An RGBA image whose alpha samples are all 255. -/
def imgOpaque : Image := ⟨"RGBA", [⟨10, 20, 30, 255⟩]⟩

/-- An RGBA image with one transparent pixel. -/
def imgTransparent : Image := ⟨"RGBA", [⟨10, 20, 30, 0⟩, ⟨7, 8, 9, 255⟩]⟩

/-- A greyscale-plus-alpha image (PIL mode "LA") with a transparent
pixel; its color model includes an alpha channel but its mode is not
"RGBA". -/
def imgLA : Image := ⟨"LA", [⟨0, 0, 0, 0⟩]⟩

/-- The save oracle of a machine where every write succeeds. -/
def saveOk : FileName → Option String := fun _ => none

/-- Directory with a single greyscale-plus-alpha PNG. -/
def fsLA : FS := [⟨⟨"g", "png"⟩, .pre (.ok imgLA)⟩]

/-- Directory with one PNG whose WebP counterpart already exists. -/
def fsSkip : FS := [⟨⟨"c", "png"⟩, .pre (.ok imgOpaque)⟩, ⟨⟨"c", "webp"⟩, .pre (.error "x")⟩]

/-- Existing directory with one convertible PNG. -/
def envSingle : Env := ⟨true, true, [⟨⟨"a", "png"⟩, .pre (.ok imgOpaque)⟩], saveOk⟩

/-- Existing directory with one PNG that fails to decode. -/
def envBroken : Env := ⟨true, true, [⟨⟨"a", "png"⟩, .pre (.error "broken PNG")⟩], saveOk⟩

/-- Existing empty directory. -/
def envEmpty : Env := ⟨true, true, [], saveOk⟩

/-- A source path that does not exist. -/
def envMissing : Env := ⟨false, false, [], saveOk⟩

/-- Scenario directory: one convertible PNG, one broken PNG, one PNG
whose WebP counterpart already exists. -/
def envScenario : Env :=
  ⟨true, true,
   [⟨⟨"a", "png"⟩, .pre (.ok imgOpaque)⟩,
    ⟨⟨"b", "png"⟩, .pre (.error "bad file")⟩,
    ⟨⟨"c", "png"⟩, .pre (.ok imgTransparent)⟩,
    ⟨⟨"c", "webp"⟩, .pre (.error "x")⟩],
   saveOk⟩

/-- C1 counterexample: over a directory holding one undecodable PNG,
the first run completes with one error and writes nothing, and the
second run with the same options reports the same summary, whose
skipped count (0) differs from its total found (1) — refuting the
claimed second-run equality skipped_count == total_found. -/
theorem C1_counterexample :
    (convert_png_to_webp envBroken 85 false).1 = .completed ⟨1, 0, 0, 1⟩ ∧
    (convert_png_to_webp
        { envBroken with fs := (convert_png_to_webp envBroken 85 false).2.1 }
        85 false).1 = .completed ⟨1, 0, 0, 1⟩ ∧
    (⟨1, 0, 0, 1⟩ : ConversionSummary).skipped_count ≠
      (⟨1, 0, 0, 1⟩ : ConversionSummary).total_found := by
  decide

/-- C1 witness: one opaque PNG, error-free first run, second run skips
it and writes nothing. -/
theorem C1_witness :
    (convert_png_to_webp
        { envSingle with fs := (convert_png_to_webp envSingle 85 false).2.1 }
        85 false).1 = .completed ⟨1, 0, 1, 0⟩ ∧
    (convert_png_to_webp
        { envSingle with fs := (convert_png_to_webp envSingle 85 false).2.1 }
        85 false).2.1 = (convert_png_to_webp envSingle 85 false).2.1 :=
  C1_second_run_all_skipped envSingle 85 false ⟨1, 1, 0, 0⟩
    ((convert_png_to_webp envSingle 85 false).2.1) (by decide) rfl rfl

/-- C2 counterexample: the "LA" image has an alpha channel and a
transparent pixel, yet the code does not give it the alpha-preserving
treatment the inspection of the range would dictate: with lossless
requested it is encoded with quality applied and lossless absent. -/
theorem C2_counterexample :
    mode_includes_alpha imgLA.mode = true ∧
    alpha_min imgLA < 255 ∧
    decideSave imgLA 85 true = (imgLA, ⟨"WEBP", none, some 85⟩) ∧
    decideSave imgLA 85 true ≠ (imgLA, ⟨"WEBP", some true, none⟩) := by
  decide

/-- C2 witness: the "LA" image, which has an alpha channel but is not
"RGBA", is encoded directly with quality applied. -/
theorem C2_witness :
    processFile saveOk 85 true fsLA ⟨"g", "png"⟩ =
      ⟨.converted, fsLA ++ [⟨⟨"g", "webp"⟩, .written imgLA ⟨"WEBP", none, some 85⟩⟩],
       [.checkExists ⟨"g", "webp"⟩ false, .openImage ⟨"g", "png"⟩, .save ⟨"g", "webp"⟩]⟩ :=
  (C2_rgba_only_mode_decision saveOk 85 true fsLA ⟨"g", "png"⟩ imgLA rfl rfl rfl).1
    rfl (by decide)

/-- C3 witness: a transparent RGBA PNG converted with lossless
requested is saved unchanged with lossless and without quality. -/
theorem C3_witness :
    processFile saveOk 85 true [⟨⟨"t", "png"⟩, .pre (.ok imgTransparent)⟩] ⟨"t", "png"⟩ =
      ⟨.converted,
       [⟨⟨"t", "png"⟩, .pre (.ok imgTransparent)⟩] ++
         [⟨⟨"t", "webp"⟩, .written imgTransparent ⟨"WEBP", some true, none⟩⟩],
       [.checkExists ⟨"t", "webp"⟩ false, .openImage ⟨"t", "png"⟩, .save ⟨"t", "webp"⟩]⟩ :=
  C3_transparent_rgba_keeps_alpha saveOk 85 true
    [⟨⟨"t", "png"⟩, .pre (.ok imgTransparent)⟩] ⟨"t", "png"⟩ imgTransparent
    rfl rfl rfl (by decide) rfl

/-- C4 witness: a fully opaque RGBA PNG converted with lossless
requested is still saved as RGB with quality applied. -/
theorem C4_witness :
    processFile saveOk 85 true [⟨⟨"o", "png"⟩, .pre (.ok imgOpaque)⟩] ⟨"o", "png"⟩ =
      ⟨.converted,
       [⟨⟨"o", "png"⟩, .pre (.ok imgOpaque)⟩] ++
         [⟨⟨"o", "webp"⟩, .written imgOpaque.convertRGB ⟨"WEBP", none, some 85⟩⟩],
       [.checkExists ⟨"o", "webp"⟩ false, .openImage ⟨"o", "png"⟩, .save ⟨"o", "webp"⟩]⟩ ∧
    imgOpaque.convertRGB.mode = "RGB" :=
  C4_opaque_rgba_drops_alpha saveOk 85 true
    [⟨⟨"o", "png"⟩, .pre (.ok imgOpaque)⟩] ⟨"o", "png"⟩ imgOpaque
    rfl rfl rfl (by decide) rfl

/-- C5 witness: the scenario run finds 3 files, converts 1, skips 1 and
fails 1, and 3 = 1 + 1 + 1. -/
theorem C5_witness :
    (⟨3, 1, 1, 1⟩ : ConversionSummary).total_found =
      (⟨3, 1, 1, 1⟩ : ConversionSummary).converted_count +
        (⟨3, 1, 1, 1⟩ : ConversionSummary).skipped_count +
        (⟨3, 1, 1, 1⟩ : ConversionSummary).error_count :=
  C5_count_conservation envScenario 85 false ⟨3, 1, 1, 1⟩ (by decide)

/-- C6 witness: a directory whose single PNG fails to decode, followed
by one more file in the loop. -/
theorem C6_witness :
    (processFile saveOk 85 false [⟨⟨"a", "png"⟩, .pre (.error "bad")⟩]
        ⟨"a", "png"⟩).outcome = .failed "bad" ∧
    (processFile saveOk 85 false [⟨⟨"a", "png"⟩, .pre (.error "bad")⟩]
        ⟨"a", "png"⟩).fs = [⟨⟨"a", "png"⟩, .pre (.error "bad")⟩] ∧
    (runLoop saveOk 85 false [⟨"a", "png"⟩, ⟨"b", "png"⟩]
        [⟨⟨"a", "png"⟩, .pre (.error "bad")⟩]).outcomes =
      .failed "bad" ::
        (runLoop saveOk 85 false [⟨"b", "png"⟩]
          [⟨⟨"a", "png"⟩, .pre (.error "bad")⟩]).outcomes ∧
    (runLoop saveOk 85 false [⟨"a", "png"⟩, ⟨"b", "png"⟩]
        [⟨⟨"a", "png"⟩, .pre (.error "bad")⟩]).fs =
      (runLoop saveOk 85 false [⟨"b", "png"⟩]
        [⟨⟨"a", "png"⟩, .pre (.error "bad")⟩]).fs ∧
    (runLoop saveOk 85 false [⟨"a", "png"⟩, ⟨"b", "png"⟩]
        [⟨⟨"a", "png"⟩, .pre (.error "bad")⟩]).outcomes.countP isFailed =
      (runLoop saveOk 85 false [⟨"b", "png"⟩]
        [⟨⟨"a", "png"⟩, .pre (.error "bad")⟩]).outcomes.countP isFailed + 1 ∧
    (runLoop saveOk 85 false [⟨"a", "png"⟩, ⟨"b", "png"⟩]
        [⟨⟨"a", "png"⟩, .pre (.error "bad")⟩]).outcomes.length = 2 :=
  C6_per_file_failure_nonfatal saveOk 85 false
    [⟨⟨"a", "png"⟩, .pre (.error "bad")⟩] ⟨"a", "png"⟩ [⟨"b", "png"⟩] "bad"
    rfl (Or.inl rfl)

/-- C7 witness: a missing source path yields the diagnostic, an
unchanged directory and an empty event trace. -/
theorem C7_witness :
    convert_png_to_webp envMissing 85 false =
      (.dirError (if envMissing.sourceExists then "not a directory" else "does not exist"),
       envMissing.fs, []) :=
  C7_directory_error envMissing 85 false (Or.inl rfl)

/-- C8 counterexample: on an existing empty directory the run returns
the no-PNG-files early return, not a completed summary with all counts
zero. -/
theorem C8_counterexample :
    convert_png_to_webp envEmpty 85 false = (.noPngFiles, envEmpty.fs, [.enumerate]) ∧
    (convert_png_to_webp envEmpty 85 false).1 ≠ .completed ⟨0, 0, 0, 0⟩ := by
  decide

/-- C8 witness: the empty existing directory. -/
theorem C8_witness :
    convert_png_to_webp envEmpty 85 false = (.noPngFiles, envEmpty.fs, [.enumerate]) :=
  C8_no_png_files envEmpty 85 false rfl rfl rfl

/-- C10 witness: the PNG whose WebP counterpart exists is skipped with
a single existence check and no codec open. -/
theorem C10_witness :
    processFile saveOk 85 false fsSkip ⟨"c", "png"⟩ =
      ⟨.skipped, fsSkip, [.checkExists ⟨"c", "webp"⟩ true]⟩ ∧
    Event.openImage ⟨"c", "png"⟩ ∉ (processFile saveOk 85 false fsSkip ⟨"c", "png"⟩).events ∧
    isFailed (processFile saveOk 85 false fsSkip ⟨"c", "png"⟩).outcome = false :=
  C10_skipped_file_never_decoded saveOk 85 false fsSkip ⟨"c", "png"⟩ rfl
